import Mathlib

/-!
Verification of the interactive visual-overlay subsystem of the
multi-scale-frontend repository: selection state machine, coordinate
mapping, overlay hit-testing, mask-outline extraction, drag-to-box
selection and the image validation/resize pipeline.

All definitions are shallow embeddings of the TypeScript source
(`src/components/ObjectDetectionView.tsx`, `src/components/SearchResults.tsx`
and the image utilities module).  JavaScript numbers are modelled as exact
rationals (all arithmetic performed by the relevant code paths — scaling by
powers of two, `Math.round`, `min`/`max` — is exact on the values involved),
`Math.round` as `⌊x + 1/2⌋`, and DOM/canvas effects as explicit parameters.
-/

namespace MSF

/-! ## Selection state machine (`ObjectDetectionView`) -/

/-- The hover/selection state of `ObjectDetectionView`:
`hoveredObjectId` and `clickedObjectId` React states. -/
structure SelState where
  hoveredObjectId : Option ℕ
  clickedObjectId : Option ℕ
  deriving DecidableEq, Repr

/-- Events emitted by the overlay component to its consumer. -/
inductive SelEvent where
  /-- `onObjectClick(object)` carrying the object id. -/
  | objectClick (objectId : ℕ)
  deriving DecidableEq, Repr

/-- The `useEffect(() => { setClickedObjectId(null); }, [objects])` hook of
`ObjectDetectionView` (lines 192–195): run when the objects list is
replaced.  It clears `clickedObjectId` and emits nothing; no other state is
touched. -/
def resetOnObjectsChange (s : SelState) : SelState × List SelEvent :=
  ({ s with clickedObjectId := none }, [])

/-- `handleObjectClick` of `ObjectDetectionView` (lines 244–253): toggle
selection.  If the clicked object is already selected, deselect and emit
nothing; otherwise select it and emit `onObjectClick` with that object. -/
def handleObjectClick (s : SelState) (objectId : ℕ) : SelState × List SelEvent :=
  if s.clickedObjectId = some objectId then
    ({ s with clickedObjectId := none }, [])
  else
    ({ s with clickedObjectId := some objectId }, [SelEvent.objectClick objectId])

/-- `handleMouseLeave` (lines 240–242): clear the hover. -/
def handleMouseLeave (s : SelState) : SelState :=
  { s with hoveredObjectId := none }

/-! ## Coordinate mapping -/

/-- JavaScript `Math.round`: round half toward positive infinity. -/
def jround (q : ℚ) : ℤ :=
  ⌊q + 1 / 2⌋

/-- The `imageInfo` React state of `ObjectDetectionView` (lines 30–35):
the rendered image element's size and its offset inside the container. -/
structure ImageInfo where
  displayWidth : ℚ
  displayHeight : ℚ
  offsetX : ℚ
  offsetY : ℚ
  deriving DecidableEq, Repr

/-- A bounding box in original pixel space (`BBox` of the api module). -/
structure BBox where
  x1 : ℚ
  y1 : ℚ
  x2 : ℚ
  y2 : ℚ
  deriving DecidableEq, Repr

/-- The value returned by `getDisplayBbox` on the non-null path
(lines 182–189): container-relative display rect plus its size. -/
structure DisplayBbox where
  x1 : ℚ
  y1 : ℚ
  x2 : ℚ
  y2 : ℚ
  width : ℚ
  height : ℚ
  deriving DecidableEq, Repr

/-- `getDisplayBbox` of `ObjectDetectionView` (lines 167–190): map a bbox
from original pixel space to container-relative display space.  Returns
`none` (null) when the display geometry or the original image dimensions
are zero; otherwise scales each axis by `displaySize / originalSize` and
adds the image offset. -/
def getDisplayBbox (imageWidth imageHeight : ℚ) (info : ImageInfo)
    (bbox : BBox) : Option DisplayBbox :=
  if info.displayWidth = 0 ∨ info.displayHeight = 0 ∨
      imageWidth = 0 ∨ imageHeight = 0 then
    none
  else
    let scaleX := info.displayWidth / imageWidth
    let scaleY := info.displayHeight / imageHeight
    some
      { x1 := info.offsetX + bbox.x1 * scaleX
        y1 := info.offsetY + bbox.y1 * scaleY
        x2 := info.offsetX + bbox.x2 * scaleX
        y2 := info.offsetY + bbox.y2 * scaleY
        width := (bbox.x2 - bbox.x1) * scaleX
        height := (bbox.y2 - bbox.y1) * scaleY }

/-- `getRelativeCoordinates` of `BoundingBoxSelector`
(`SearchResults.tsx`, lines 222–254): map a container-relative pointer
position to display-relative and original-image coordinates.  Returns
`none` when `originalImageSize.width === 0` or the pointer is outside the
rendered image rect; otherwise scales by `originalSize / displaySize` and
rounds with `Math.round`.  The inputs `imgX`/`imgY` are the image
element's offset inside the container and `dispW`/`dispH` its rendered
size. -/
def getRelativeCoordinates (origW origH : ℚ) (imgX imgY dispW dispH : ℚ)
    (x y : ℚ) : Option (ℚ × ℚ × ℤ × ℤ) :=
  if origW = 0 then
    none
  else if x < imgX ∨ x > imgX + dispW ∨ y < imgY ∨ y > imgY + dispH then
    none
  else
    let displayX := x - imgX
    let displayY := y - imgY
    let scaleX := origW / dispW
    let scaleY := origH / dispH
    some (displayX, displayY, jround (displayX * scaleX), jround (displayY * scaleY))

/-- `toDisplay`, the forward direction of the coordinate mapper: the point
form of the per-axis map used by `getDisplayBbox`,
`display = offset + p * (displaySize / originalSize)`. -/
def toDisplay (origW origH : ℚ) (info : ImageInfo) (p : ℚ × ℚ) : ℚ × ℚ :=
  (info.offsetX + p.1 * (info.displayWidth / origW),
   info.offsetY + p.2 * (info.displayHeight / origH))

/-- `toOriginal`, the inverse direction as implemented by
`getRelativeCoordinates`: subtract the image offset and scale by
`originalSize / displaySize`, rounding to the nearest integer pixel.
Here the pointer is given relative to the container with the image at
`(offsetX, offsetY)`. -/
def toOriginal (origW origH : ℚ) (info : ImageInfo) (q : ℚ × ℚ) : ℤ × ℤ :=
  (jround ((q.1 - info.offsetX) * (origW / info.displayWidth)),
   jround ((q.2 - info.offsetY) * (origH / info.displayHeight)))

/-! ## Overlay hit-testing -/

/-- A detected region as consumed by `ObjectDetectionView`: the fields of
`SegmentedObject` that hit-testing reads. -/
structure Region where
  object_id : ℕ
  bbox : BBox
  deriving DecidableEq, Repr

/-- The containment test of `handleMouseMove` (lines 220–231): the display
bbox is converted to image-relative coordinates by subtracting the image
offset, and the pointer must satisfy all four inclusive comparisons. -/
def containsPointer (info : ImageInfo) (db : DisplayBbox)
    (mouseX mouseY : ℚ) : Bool :=
  decide (db.x1 - info.offsetX ≤ mouseX ∧ mouseX ≤ db.x2 - info.offsetX ∧
    db.y1 - info.offsetY ≤ mouseY ∧ mouseY ≤ db.y2 - info.offsetY)

/-- Whether a single region is hit by the pointer: its display rect exists
and contains the pointer.  A region whose `getDisplayBbox` is null is
skipped (`continue` in the source loop). -/
def regionHit (imageWidth imageHeight : ℚ) (info : ImageInfo)
    (mouseX mouseY : ℚ) (obj : Region) : Bool :=
  match getDisplayBbox imageWidth imageHeight info obj.bbox with
  | none => false
  | some db => containsPointer info db mouseX mouseY

/-- The hover-resolution loop of `handleMouseMove` (lines 213–237),
written over an already-reversed list: the source iterates `i` from
`objects.length - 1` down to `0`, skips regions with a null display bbox,
and stops at the first region containing the pointer. -/
def hitLoop (imageWidth imageHeight : ℚ) (info : ImageInfo)
    (mouseX mouseY : ℚ) : List Region → Option ℕ
  | [] => none
  | obj :: rest =>
      match getDisplayBbox imageWidth imageHeight info obj.bbox with
      | none => hitLoop imageWidth imageHeight info mouseX mouseY rest
      | some db =>
          if containsPointer info db mouseX mouseY then some obj.object_id
          else hitLoop imageWidth imageHeight info mouseX mouseY rest

/-- The hit-test over the objects list in source order: run the loop on
the reversed list, as the source's downward `for` loop does. -/
def hitTest (imageWidth imageHeight : ℚ) (info : ImageInfo)
    (mouseX mouseY : ℚ) (objects : List Region) : Option ℕ :=
  hitLoop imageWidth imageHeight info mouseX mouseY objects.reverse

/-- `handleMouseMove` of `ObjectDetectionView` (lines 198–238) as a state
transformer on the hovered id: with no objects the handler returns early
(hover unchanged); a pointer outside the rendered image clears the hover;
otherwise the hover becomes the hit-test result. -/
def handleMouseMove (prev : Option ℕ) (imageWidth imageHeight : ℚ)
    (info : ImageInfo) (mouseX mouseY : ℚ) (objects : List Region) :
    Option ℕ :=
  if objects = [] then prev
  else if mouseX < 0 ∨ mouseY < 0 ∨ mouseX > info.displayWidth ∨
      mouseY > info.displayHeight then none
  else hitTest imageWidth imageHeight info mouseX mouseY objects

/-! ## Mask-outline extraction (`createOutline`, lines 38–108) -/

/-- The four axis-aligned neighbor coordinates checked by `createOutline`
(line 80–81: `[[x-1,y],[x+1,y],[x,y-1],[x,y+1]]`). -/
def neighborChecks (x y : ℤ) : List (ℤ × ℤ) :=
  [(x - 1, y), (x + 1, y), (x, y - 1), (x, y + 1)]

/-- The `isEdge` computation of `createOutline` (lines 79–94): some
neighbor is out of bounds (`nx < 0 || nx >= width || ny < 0 || ny >=
height`) or has alpha ≤ 128.  `alpha` is the source raster's alpha
channel (`data[idx + 3]`). -/
def isEdge (w h : ℕ) (alpha : ℤ → ℤ → ℕ) (x y : ℤ) : Bool :=
  (neighborChecks x y).any fun q =>
    decide (q.1 < 0) || decide ((w : ℤ) ≤ q.1) || decide (q.2 < 0) ||
      decide ((h : ℤ) ≤ q.2) || decide (alpha q.1 q.2 ≤ 128)

/-- Whether `createOutline` paints output pixel (x, y) with the fixed
highlight color `#00FFFF` (lines 77–98): source alpha exceeds 128 and the
pixel is an edge pixel.  All other output pixels stay transparent. -/
def outlinePainted (w h : ℕ) (alpha : ℤ → ℤ → ℕ) (x y : ℤ) : Bool :=
  decide (128 < alpha x y) && isEdge w h alpha x y

/-- The set of painted output pixels of the W×H outline raster. -/
def outlinePixels (w h : ℕ) (alpha : ℤ → ℤ → ℕ) : Finset (ℕ × ℕ) :=
  (Finset.range w ×ˢ Finset.range h).filter fun p =>
    outlinePainted w h alpha (p.1 : ℤ) (p.2 : ℤ)

/-- The number of painted outline pixels. -/
def outlineCount (w h : ℕ) (alpha : ℤ → ℤ → ℕ) : ℕ :=
  (outlinePixels w h alpha).card

/-- The result of `createOutline`: either a computed outline raster or the
original mask URL, to which the function falls back. -/
inductive OutlineResult where
  /-- The painted outline raster (`outlineCanvas.toDataURL`). -/
  | outline (pixels : Finset (ℕ × ℕ))
  /-- The original mask (`resolve(maskUrl)` on any failure path). -/
  | originalMask
  deriving DecidableEq

/-- `createOutline` (lines 38–108) as a total function on the decode
outcome and the availability of the two canvas contexts.  The promise it
returns always resolves: if the mask image fails to decode
(`img.onerror`, line 105) or either 2-D context is unavailable (lines
47–50 and 63–66), it resolves with the original mask URL; otherwise it
resolves with the painted outline.  No path rejects the promise. -/
def createOutline (decoded : Option (ℕ × ℕ × (ℤ → ℤ → ℕ)))
    (ctxAvailable outlineCtxAvailable : Bool) : OutlineResult :=
  match decoded with
  | none => OutlineResult.originalMask
  | some (w, h, alpha) =>
      if ctxAvailable = false then OutlineResult.originalMask
      else if outlineCtxAvailable = false then OutlineResult.originalMask
      else OutlineResult.outline (outlinePixels w h alpha)

/-! ## Drag-to-box selector (`BoundingBoxSelector`, `SearchResults.tsx`) -/

/-- The position record produced by `getRelativeCoordinates`:
display-relative coordinates plus original-image coordinates. -/
structure DragPos where
  x : ℚ
  y : ℚ
  originalX : ℤ
  originalY : ℤ
  deriving DecidableEq, Repr

/-- The integer bounding box of `BoundingBoxSelector`, in original pixel
space. -/
structure IBox where
  x1 : ℤ
  y1 : ℤ
  x2 : ℤ
  y2 : ℤ
  deriving DecidableEq, Repr

/-- The box computation of the selector's `handleMouseMove` (lines
275–280): `min`/`max` of the start and current original coordinates,
independently per axis. -/
def dragBox (startPos pos : DragPos) : IBox :=
  { x1 := min startPos.originalX pos.originalX
    y1 := min startPos.originalY pos.originalY
    x2 := max startPos.originalX pos.originalX
    y2 := max startPos.originalY pos.originalY }

/-- `handleMouseMove` of `BoundingBoxSelector` (lines 267–281) together
with the `useEffect` on `[bbox]` (lines 301–305) that forwards every new
box to `onBboxChange`: while drawing with a mapped pointer position, the
normalized box is stored and emitted; otherwise the state is unchanged
and nothing is emitted. -/
def selectorMouseMove (isDrawing enabled : Bool) (startPos pos : Option DragPos)
    (bbox : Option IBox) : Option IBox × List (Option IBox) :=
  if isDrawing = false ∨ enabled = false then (bbox, [])
  else
    match pos, startPos with
    | some p, some s => (some (dragBox s p), [some (dragBox s p)])
    | _, _ => (bbox, [])

/-! ## Image preprocessing (`imageUtils`, `src/unnamed/part_002`) -/

/-- An image file as the preprocessing pipeline sees it: MIME type, byte
size, decoded pixel dimensions, and an opaque identity for the byte
content. -/
structure ImgFile where
  name : String
  mime : String
  size : ℕ
  width : ℕ
  height : ℕ
  content : ℕ
  deriving DecidableEq, Repr

/-- The dimension computation of `preprocessImage` (lines 938–948): when
either side exceeds `maxDimension`, the longer side becomes
`maxDimension` and the other is `Math.round(short * maxDimension /
long)`; otherwise dimensions are unchanged. -/
def resizeDims (width height maxDimension : ℕ) : ℕ × ℕ :=
  if width > maxDimension ∨ height > maxDimension then
    if width > height then
      (maxDimension, (jround ((height * maxDimension : ℚ) / width)).toNat)
    else
      ((jround ((width * maxDimension : ℚ) / height)).toNat, maxDimension)
  else (width, height)

/-- `preprocessImage` (lines 930–995): draw the image at the resized
dimensions and re-encode via `canvas.toBlob(..., 'image/jpeg', quality)`,
returning a new `File` with the original name and MIME type
`'image/jpeg'`.  This happens on every call — also when the image is
already within bounds.  `encode` abstracts the canvas JPEG encoder
(content, width, height, quality ↦ new content). -/
def preprocessImage (encode : ℕ → ℕ → ℕ → ℚ → ℕ) (f : ImgFile)
    (maxDimension : ℕ) (quality : ℚ) : ImgFile :=
  let dims := resizeDims f.width f.height maxDimension
  { name := f.name
    mime := "image/jpeg"
    size := encode f.content dims.1 dims.2 quality
    width := dims.1
    height := dims.2
    content := encode f.content dims.1 dims.2 quality }

/-- The resize step of `processImageFile` (part_002, lines 76–90): the
caller invokes `preprocessImage(file, 1920, 0.85)` only when a decoded
dimension exceeds 1920; otherwise `processedFile = file` — the file is
passed through untouched. -/
def processImageFile (encode : ℕ → ℕ → ℕ → ℚ → ℕ) (f : ImgFile) : ImgFile :=
  if f.width > 1920 ∨ f.height > 1920 then
    preprocessImage encode f 1920 (85 / 100)
  else f

/-- The validation error taxonomy of the spec, carried by the message
strings the code returns. -/
inductive ValidationError where
  | InvalidType
  | TooLarge
  | TooSmall
  deriving DecidableEq, Repr

/-- `file.type.startsWith('image/')` (line 1021). -/
def mimeIsImage (mime : String) : Bool :=
  "image/".toList.isPrefixOf mime.toList

/-- `validateImageFile` (lines 1019–1039): reject non-image MIME types,
then files over 10 MiB (`fileSizeMB > 10`, followed by the equivalent
byte-level check `file.size > 10 * 1024 * 1024`). -/
def validateImageFile (mime : String) (size : ℕ) : Option ValidationError :=
  if mimeIsImage mime = false then some ValidationError.InvalidType
  else if (size : ℚ) / (1024 * 1024) > 10 then some ValidationError.TooLarge
  else if size > 10 * 1024 * 1024 then some ValidationError.TooLarge
  else none

/-- `validateImageDimensions` (lines 1046–1059): reject images whose
decoded width or height is below 400 px. -/
def validateImageDimensions (width height : ℕ) : Option ValidationError :=
  if width < 400 ∨ height < 400 then some ValidationError.TooSmall else none

/-- The validation pipeline of `processImageFile` (lines 58–70):
`validateImageFile` first; only if it passes, `validateImageDimensions`
on the decoded size. -/
def validate (f : ImgFile) : Option ValidationError :=
  match validateImageFile f.mime f.size with
  | some e => some e
  | none => validateImageDimensions f.width f.height

end MSF

/-! ## Theorems -/

namespace MSF

/-- C1 counterexample: replacing the objects list does NOT reset
`hoveredObjectId`.  Starting from a state hovering object 5 with object 3
selected, the reset effect leaves `hoveredObjectId = some 5`, so the claim
"afterwards both hoveredId and selectedId are none" fails. -/
theorem C1_reset_keeps_hover_counterexample :
    (resetOnObjectsChange ⟨some 5, some 3⟩).1.hoveredObjectId = some 5 ∧
      (resetOnObjectsChange ⟨some 5, some 3⟩).1.hoveredObjectId ≠ none := by
  constructor
  · rfl
  · intro h
    simp [resetOnObjectsChange] at h

/-- C1 (amended): replacing the objects list unconditionally resets
`clickedObjectId` (the selection) to `none` and emits no event, while
`hoveredObjectId` is left unchanged by the reset effect itself. -/
theorem C1_reset_clears_selection_only (s : SelState) :
    resetOnObjectsChange s = (⟨s.hoveredObjectId, none⟩, []) := by
  rfl

/-- `Math.round` is within one of its argument. -/
theorem jround_sub_abs_le (q : ℚ) : |(jround q : ℚ) - q| ≤ 1 := by
  have h1 : ((⌊q + 1 / 2⌋ : ℤ) : ℚ) ≤ q + 1 / 2 := Int.floor_le _
  have h2 : q + 1 / 2 < (⌊q + 1 / 2⌋ : ℤ) + 1 := Int.lt_floor_add_one _
  rw [jround]
  rw [abs_le]
  constructor <;> linarith

/-- C7: for nonzero display and original dimensions, mapping a point from
original space to display space with the `getDisplayBbox` scaling and back
with the `getRelativeCoordinates` scaling returns the point within ±1
pixel on each axis (in fact within ±1/2, the `Math.round` error). -/
theorem C7_round_trip (origW origH : ℚ) (info : ImageInfo) (p : ℚ × ℚ)
    (how : origW ≠ 0) (hoh : origH ≠ 0)
    (hdw : info.displayWidth ≠ 0) (hdh : info.displayHeight ≠ 0)
    (hx0 : 0 ≤ p.1) (hx1 : p.1 ≤ origW) (hy0 : 0 ≤ p.2) (hy1 : p.2 ≤ origH) :
    |((toOriginal origW origH info (toDisplay origW origH info p)).1 : ℚ) - p.1| ≤ 1 ∧
      |((toOriginal origW origH info (toDisplay origW origH info p)).2 : ℚ) - p.2| ≤ 1 := by
  have hx : (info.offsetX + p.1 * (info.displayWidth / origW) - info.offsetX) *
      (origW / info.displayWidth) = p.1 := by
    field_simp
    ring
  have hy : (info.offsetY + p.2 * (info.displayHeight / origH) - info.offsetY) *
      (origH / info.displayHeight) = p.2 := by
    field_simp
    ring
  have key : toOriginal origW origH info (toDisplay origW origH info p) =
      (jround p.1, jround p.2) := by
    simp only [toOriginal, toDisplay]
    rw [hx, hy]
  rw [key]
  exact ⟨jround_sub_abs_le p.1, jround_sub_abs_le p.2⟩

/-- C7 witness: a concrete round trip.  Original image 800×600 rendered at
400×300 with offset (7, 11): the point (123, 45) maps to display space and
back to exactly (123, 45). -/
theorem C7_round_trip_witness :
    |((toOriginal 800 600 ⟨400, 300, 7, 11⟩
        (toDisplay 800 600 ⟨400, 300, 7, 11⟩ (123, 45))).1 : ℚ) - 123| ≤ 1 ∧
      |((toOriginal 800 600 ⟨400, 300, 7, 11⟩
        (toDisplay 800 600 ⟨400, 300, 7, 11⟩ (123, 45))).2 : ℚ) - 45| ≤ 1 :=
  C7_round_trip 800 600 ⟨400, 300, 7, 11⟩ (123, 45) (by norm_num) (by norm_num)
    (by norm_num) (by norm_num) (by norm_num) (by norm_num) (by norm_num)
    (by norm_num)

/-- C10 counterexample: the claim asserts that whenever the original
width or height is zero the mapping functions return `none`; but
`getRelativeCoordinates` only guards `originalImageSize.width === 0`.
With original size 800×0, a 400×300 rendered image at offset (0, 0) and
the pointer at (100, 50) inside the rect, it returns a value, not
`none`. -/
theorem C10_zero_height_counterexample :
    getRelativeCoordinates 800 0 0 0 400 300 100 50 = some (100, 50, 200, 0) ∧
      getRelativeCoordinates 800 0 0 0 400 300 100 50 ≠ none := by
  have h : getRelativeCoordinates 800 0 0 0 400 300 100 50 =
      some (100, 50, 200, 0) := by
    rw [getRelativeCoordinates]
    norm_num [jround]
  exact ⟨h, by rw [h]; exact Option.some_ne_none _⟩

/-- C10 (amended): `getDisplayBbox` returns `none` whenever the display
width/height or the original width/height is zero; `getRelativeCoordinates`
returns `none` whenever the original width is zero (its only zero-size
guard).  Neither divides by zero on these guarded paths. -/
theorem C10_zero_geometry_guard :
    (∀ (imageWidth imageHeight : ℚ) (info : ImageInfo) (bbox : BBox),
      info.displayWidth = 0 ∨ info.displayHeight = 0 ∨
        imageWidth = 0 ∨ imageHeight = 0 →
      getDisplayBbox imageWidth imageHeight info bbox = none) ∧
    (∀ origW origH imgX imgY dispW dispH x y : ℚ, origW = 0 →
      getRelativeCoordinates origW origH imgX imgY dispW dispH x y = none) := by
  constructor
  · intro imageWidth imageHeight info bbox h
    simp [getDisplayBbox, h]
  · intro origW origH imgX imgY dispW dispH x y h
    simp [getRelativeCoordinates, h]

/-- C10 witness: with zero display width, `getDisplayBbox` yields `none`,
and with zero original width, `getRelativeCoordinates` yields `none`. -/
theorem C10_zero_geometry_guard_witness :
    getDisplayBbox 800 600 ⟨0, 300, 0, 0⟩ ⟨1, 2, 3, 4⟩ = none ∧
      getRelativeCoordinates 0 600 0 0 400 300 10 10 = none :=
  ⟨C10_zero_geometry_guard.1 800 600 ⟨0, 300, 0, 0⟩ ⟨1, 2, 3, 4⟩ (Or.inl rfl),
   C10_zero_geometry_guard.2 0 600 0 0 400 300 10 10 rfl⟩

/-- The hover-resolution loop is a `find?` over its input list. -/
theorem hitLoop_eq_find (iw ih : ℚ) (info : ImageInfo) (mx my : ℚ)
    (l : List Region) :
    hitLoop iw ih info mx my l =
      (l.find? (regionHit iw ih info mx my)).map Region.object_id := by
  induction l with
  | nil => rfl
  | cons obj rest ihr =>
    cases h : getDisplayBbox iw ih info obj.bbox with
    | none =>
      have hr : regionHit iw ih info mx my obj = false := by
        simp [regionHit, h]
      simp [hitLoop, h, List.find?_cons, hr, ihr]
    | some db =>
      have hr : regionHit iw ih info mx my obj = containsPointer info db mx my := by
        simp [regionHit, h]
      by_cases hc : containsPointer info db mx my = true
      · simp [hitLoop, h, List.find?_cons, hr, hc]
      · rw [eq_false_of_ne_true hc] at hr
        simp [hitLoop, h, List.find?_cons, hr, hc, ihr]

/-- C4 counterexample: the claim quantifies over every region list, but
on the empty list `handleMouseMove` returns early (line 199) and leaves
the previous hover in place.  With a stale hover `some 7` (reachable,
since replacing the objects list does not clear the hover), a pointer at
(10, 10) inside the 800×600 rendered image, and no regions — so no
region's rect contains the pointer — the result is still `some 7`, not
"no hover". -/
theorem C4_empty_list_stale_hover_counterexample :
    handleMouseMove (some 7) 800 600 ⟨800, 600, 0, 0⟩ 10 10 [] = some 7 ∧
      handleMouseMove (some 7) 800 600 ⟨800, 600, 0, 0⟩ 10 10 [] ≠ none := by
  have h : handleMouseMove (some 7) 800 600 ⟨800, 600, 0, 0⟩ 10 10 [] =
      some 7 := rfl
  exact ⟨h, by rw [h]; exact Option.some_ne_none _⟩

/-- C4 (amended): for a pointer inside the rendered image and a nonempty
region list, `handleMouseMove` resolves the hover by iterating the list
in reverse: the result is the id of the first region of the reversed
list (the last of the input list) whose display rect contains the
pointer; it is `none` when no region's rect contains the pointer; and
when every region's rect contains the pointer it is the id of the last
region of the input list.  (On the empty list the handler returns early
and the previous hover — possibly stale — is left unchanged.) -/
theorem C4_hit_test_reverse (prev : Option ℕ) (iw ih : ℚ) (info : ImageInfo)
    (mx my : ℚ) (objects : List Region) (hne : objects ≠ [])
    (hx0 : 0 ≤ mx) (hx1 : mx ≤ info.displayWidth)
    (hy0 : 0 ≤ my) (hy1 : my ≤ info.displayHeight) :
    handleMouseMove prev iw ih info mx my objects =
        (objects.reverse.find? (regionHit iw ih info mx my)).map
          Region.object_id ∧
    ((∀ o ∈ objects, regionHit iw ih info mx my o = false) →
        handleMouseMove prev iw ih info mx my objects = none) ∧
    ((∀ o ∈ objects, regionHit iw ih info mx my o = true) →
        handleMouseMove prev iw ih info mx my objects =
          some ((objects.getLast hne).object_id)) := by
  have hbound : ¬(mx < 0 ∨ my < 0 ∨ mx > info.displayWidth ∨
      my > info.displayHeight) := by
    push_neg
    exact ⟨by linarith, by linarith, by linarith, by linarith⟩
  have hmain : handleMouseMove prev iw ih info mx my objects =
      (objects.reverse.find? (regionHit iw ih info mx my)).map
        Region.object_id := by
    rw [handleMouseMove, if_neg hne, if_neg hbound, hitTest, hitLoop_eq_find]
  refine ⟨hmain, ?_, ?_⟩
  · intro hnone
    rw [hmain]
    have : objects.reverse.find? (regionHit iw ih info mx my) = none := by
      rw [List.find?_eq_none]
      intro x hx
      simp [hnone x (List.mem_reverse.mp hx)]
    rw [this]
    rfl
  · intro hall
    have hner : objects.reverse ≠ [] := by
      simpa using hne
    obtain ⟨a, t, hat⟩ := List.exists_cons_of_ne_nil hner
    have ha : a = objects.getLast hne := by
      have h1 : objects.reverse.head? = some a := by
        rw [hat]
        rfl
      rw [List.head?_reverse, List.getLast?_eq_getLast _ hne] at h1
      exact (Option.some_injective _ h1).symm
    have hpa : regionHit iw ih info mx my a = true := by
      apply hall
      have : a ∈ objects.reverse := by
        rw [hat]
        exact List.mem_cons_self a t
      exact List.mem_reverse.mp this
    rw [hmain, hat, List.find?_cons, hpa]
    rw [ha]
    rfl

/-- C4 witness: two overlapping regions both containing the pointer
(10, 10) in an 800×600 image rendered 1:1; the hover resolves to the id
of the last region in the list. -/
theorem C4_hit_test_reverse_witness :
    handleMouseMove none 800 600 ⟨800, 600, 0, 0⟩ 10 10
      [⟨1, ⟨0, 0, 100, 100⟩⟩, ⟨2, ⟨0, 0, 50, 50⟩⟩] = some 2 := by
  have hall : ∀ o ∈ [(⟨1, ⟨0, 0, 100, 100⟩⟩ : Region), ⟨2, ⟨0, 0, 50, 50⟩⟩],
      regionHit 800 600 ⟨800, 600, 0, 0⟩ 10 10 o = true := by
    intro o ho
    simp only [List.mem_cons, List.not_mem_nil, or_false] at ho
    rcases ho with rfl | rfl <;>
      norm_num [regionHit, getDisplayBbox, containsPointer]
  exact (C4_hit_test_reverse none 800 600 ⟨800, 600, 0, 0⟩ 10 10
    [⟨1, ⟨0, 0, 100, 100⟩⟩, ⟨2, ⟨0, 0, 50, 50⟩⟩] (by simp)
    (by norm_num) (by norm_num) (by norm_num) (by norm_num)).2.2 hall

/-- Arithmetic core of the rectangle outline count. -/
theorem rect_border_count (w h : ℕ) (hw : 2 < w) (hh : 2 < h) :
    w * h - (w - 2) * (h - 2) = 2 * w + 2 * h - 4 := by
  obtain ⟨a, rfl⟩ : ∃ a, w = a + 3 := ⟨w - 3, by omega⟩
  obtain ⟨b, rfl⟩ : ∃ b, h = b + 3 := ⟨h - 3, by omega⟩
  have h1 : a + 3 - 2 = a + 1 := by omega
  have h2 : b + 3 - 2 = b + 1 := by omega
  rw [h1, h2]
  have hprod : (a + 3) * (b + 3) = (a + 1) * (b + 1) + (2 * a + 2 * b + 8) := by
    ring
  rw [hprod, Nat.add_sub_cancel_left]
  omega

/-- On the fully opaque raster, a grid pixel is painted iff it lies on
the border of the W×H rectangle. -/
theorem outlinePainted_full_mask (w h : ℕ) (x y : ℕ) (hx : x < w) (hy : y < h) :
    outlinePainted w h (fun _ _ => 255) (x : ℤ) (y : ℤ) = true ↔
      (x = 0 ∨ x = w - 1 ∨ y = 0 ∨ y = h - 1) := by
  simp only [outlinePainted, isEdge, neighborChecks, List.any_cons,
    List.any_nil, Bool.or_false, Bool.and_eq_true, Bool.or_eq_true,
    decide_eq_true_eq]
  omega

/-- C5: in `createOutline`, a pixel of the output raster is painted the
fixed highlight color iff its source alpha exceeds 128 and one of its
four axis-aligned neighbors is out of bounds or has alpha ≤ 128; and for
a fully opaque W×H mask with W, H > 2 the number of painted outline
pixels is exactly 2W + 2H − 4. -/
theorem C5_outline_pixels (w h : ℕ) (alpha : ℤ → ℤ → ℕ)
    (hw : 2 < w) (hh : 2 < h) :
    (∀ x y : ℤ, outlinePainted w h alpha x y = true ↔
        128 < alpha x y ∧ ∃ q ∈ neighborChecks x y,
          q.1 < 0 ∨ (w : ℤ) ≤ q.1 ∨ q.2 < 0 ∨ (h : ℤ) ≤ q.2 ∨
            alpha q.1 q.2 ≤ 128) ∧
    outlineCount w h (fun _ _ => 255) = 2 * w + 2 * h - 4 := by
  constructor
  · intro x y
    simp [outlinePainted, isEdge, List.any_eq_true, or_assoc]
  · have hset : outlinePixels w h (fun _ _ => 255) =
        (Finset.range w ×ˢ Finset.range h) \
          (Finset.Ico 1 (w - 1) ×ˢ Finset.Ico 1 (h - 1)) := by
      ext p
      obtain ⟨x, y⟩ := p
      simp only [outlinePixels, Finset.mem_filter, Finset.mem_sdiff,
        Finset.mem_product, Finset.mem_range, Finset.mem_Ico]
      constructor
      · rintro ⟨⟨hx, hy⟩, hp⟩
        have hb := (outlinePainted_full_mask w h x y hx hy).mp hp
        exact ⟨⟨hx, hy⟩, by omega⟩
      · rintro ⟨⟨hx, hy⟩, hni⟩
        refine ⟨⟨hx, hy⟩, (outlinePainted_full_mask w h x y hx hy).mpr ?_⟩
        omega
    have hsub : (Finset.Ico 1 (w - 1) ×ˢ Finset.Ico 1 (h - 1)) ⊆
        (Finset.range w ×ˢ Finset.range h) := by
      intro p hp
      obtain ⟨x, y⟩ := p
      simp only [Finset.mem_product, Finset.mem_Ico, Finset.mem_range] at hp ⊢
      omega
    rw [outlineCount, hset, Finset.card_sdiff hsub, Finset.card_product,
      Finset.card_product, Finset.card_range, Finset.card_range,
      Nat.card_Ico, Nat.card_Ico]
    have h1 : w - 1 - 1 = w - 2 := by omega
    have h2 : h - 1 - 1 = h - 2 := by omega
    rw [h1, h2]
    exact rect_border_count w h hw hh

/-- C5 witness: a fully opaque 5×4 mask has exactly 2·5 + 2·4 − 4 = 14
outline pixels, and the top-left corner pixel is painted. -/
theorem C5_outline_pixels_witness :
    outlineCount 5 4 (fun _ _ => 255) = 14 ∧
      outlinePainted 5 4 (fun _ _ => 255) 0 0 = true := by
  have hc := (C5_outline_pixels 5 4 (fun _ _ => 255) (by norm_num)
    (by norm_num)).2
  have hp := (C5_outline_pixels 5 4 (fun _ _ => 255) (by norm_num)
    (by norm_num)).1 0 0
  constructor
  · simpa using hc
  · rw [hp]
    refine ⟨by norm_num, ⟨(-1, 0), by simp [neighborChecks], by norm_num⟩⟩

/-- C8: `createOutline` never surfaces a failure.  Whenever the mask
raster fails to decode, or either canvas context is unavailable, the
result is the original raw mask unchanged; the function is total, so no
error is ever raised to the caller. -/
theorem C8_decode_failure_degrades (decoded : Option (ℕ × ℕ × (ℤ → ℤ → ℕ)))
    (ctxAvailable outlineCtxAvailable : Bool)
    (hfail : decoded = none ∨ ctxAvailable = false ∨
      outlineCtxAvailable = false) :
    createOutline decoded ctxAvailable outlineCtxAvailable =
      OutlineResult.originalMask := by
  rcases hfail with h | h | h
  · rw [h]
    rfl
  · cases decoded with
    | none => rfl
    | some v =>
      obtain ⟨w, h2, alpha⟩ := v
      simp [createOutline, h]
  · cases decoded with
    | none => rfl
    | some v =>
      obtain ⟨w, h2, alpha⟩ := v
      by_cases hc : ctxAvailable = false <;> simp [createOutline, h, hc]

/-- C8 witness: a failed decode resolves to the original mask. -/
theorem C8_decode_failure_degrades_witness :
    createOutline none true true = OutlineResult.originalMask :=
  C8_decode_failure_degrades none true true (Or.inl rfl)

/-- C6: the drag box is normalized per axis (`x1 = min`, `x2 = max`, so
`x1 ≤ x2` and `y1 ≤ y2`), swapping the two drag endpoints yields the
identical box, and every pointer-move while drawing stores and emits the
live box, built from the original-pixel-space coordinates. -/
theorem C6_drag_box_normalized (s p : DragPos) (bbox : Option IBox) :
    (dragBox s p).x1 ≤ (dragBox s p).x2 ∧
    (dragBox s p).y1 ≤ (dragBox s p).y2 ∧
    (dragBox s p).x1 = min s.originalX p.originalX ∧
    (dragBox s p).x2 = max s.originalX p.originalX ∧
    (dragBox s p).y1 = min s.originalY p.originalY ∧
    (dragBox s p).y2 = max s.originalY p.originalY ∧
    dragBox s p = dragBox p s ∧
    selectorMouseMove true true (some s) (some p) bbox =
      (some (dragBox s p), [some (dragBox s p)]) := by
  refine ⟨min_le_max, min_le_max, rfl, rfl, rfl, rfl, ?_, rfl⟩
  simp only [dragBox, IBox.mk.injEq]
  exact ⟨min_comm _ _, min_comm _ _, max_comm _ _, max_comm _ _⟩

/-- C2 counterexample: `preprocessImage` does not return an
already-within-bounds file byte-for-byte unchanged — it re-encodes
unconditionally.  A 1000×800 PNG (within the 1920 bound) comes back with
MIME type `image/jpeg`, so the output differs from the input.  (The
pass-through happens in the caller `processImageFile`, which skips
`preprocessImage` for in-bounds files.) -/
theorem C2_inbounds_reencode_counterexample :
    (preprocessImage (fun _ _ _ _ => 0)
        ⟨"room.png", "image/png", 500000, 1000, 800, 7⟩ 1920 (9 / 10)).mime =
      "image/jpeg" ∧
    (⟨"room.png", "image/png", 500000, 1000, 800, 7⟩ : ImgFile).mime =
      "image/png" ∧
    preprocessImage (fun _ _ _ _ => 0)
        ⟨"room.png", "image/png", 500000, 1000, 800, 7⟩ 1920 (9 / 10) ≠
      ⟨"room.png", "image/png", 500000, 1000, 800, 7⟩ ∧
    (1000 : ℕ) ≤ 1920 ∧ (800 : ℕ) ≤ 1920 := by
  refine ⟨rfl, rfl, ?_, by norm_num, by norm_num⟩
  intro hcontra
  exact absurd (congrArg ImgFile.mime hcontra) (by decide)

/-- C2 (amended): when a dimension exceeds `maxDimension`,
`preprocessImage` scales so the longer side equals `maxDimension` and the
shorter side is the aspect-preserving value rounded to the nearest pixel
(4000×2000 at 1920 gives exactly 1920×960); the upload pipeline
(`processImageFile`) passes files already within the 1920 bound through
byte-for-byte unchanged by not calling `preprocessImage` at all, while
`preprocessImage` itself always re-encodes to JPEG. -/
theorem C2_resize_amended (encode : ℕ → ℕ → ℕ → ℚ → ℕ) (f : ImgFile)
    (w h maxD : ℕ) (q : ℚ) (hover : maxD < w ∨ maxD < h) :
    max (resizeDims w h maxD).1 (resizeDims w h maxD).2 = maxD ∧
    min (resizeDims w h maxD).1 (resizeDims w h maxD).2 =
      (jround (((min w h : ℕ) * maxD : ℚ) / ((max w h : ℕ) : ℚ))).toNat ∧
    resizeDims 4000 2000 1920 = (1920, 960) ∧
    (f.width ≤ 1920 → f.height ≤ 1920 → processImageFile encode f = f) ∧
    (preprocessImage encode f maxD q).mime = "image/jpeg" := by
  have hcond : w > maxD ∨ h > maxD := hover
  have hmain : max (resizeDims w h maxD).1 (resizeDims w h maxD).2 = maxD ∧
      min (resizeDims w h maxD).1 (resizeDims w h maxD).2 =
        (jround (((min w h : ℕ) * maxD : ℚ) / ((max w h : ℕ) : ℚ))).toNat := by
    by_cases hwh : w > h
    · have hminwh : min w h = h := min_eq_right hwh.le
      have hmaxwh : max w h = w := max_eq_left hwh.le
      have hw0 : (0 : ℚ) < w := by
        have : 0 < w := by omega
        exact_mod_cast this
      have hx : ((h : ℚ) * maxD) / w ≤ maxD := by
        rw [div_le_iff hw0]
        have hhw : (h : ℚ) ≤ w := by exact_mod_cast hwh.le
        have hd0 : (0 : ℚ) ≤ maxD := by positivity
        nlinarith
      have hj : jround (((h : ℕ) * maxD : ℚ) / w) ≤ (maxD : ℤ) := by
        have hlt : jround (((h : ℕ) * maxD : ℚ) / w) < (maxD : ℤ) + 1 := by
          rw [jround, Int.floor_lt]
          push_cast
          push_cast at hx
          linarith
        omega
      have hrle : (jround (((h : ℕ) * maxD : ℚ) / w)).toNat ≤ maxD :=
        Int.toNat_le.mpr hj
      rw [resizeDims, if_pos hcond, if_pos hwh]
      refine ⟨max_eq_left hrle, ?_⟩
      rw [min_eq_right hrle, hminwh, hmaxwh]
    · have hminwh : min w h = w := min_eq_left (by omega)
      have hmaxwh : max w h = h := max_eq_right (by omega)
      have hh0 : (0 : ℚ) < h := by
        have : 0 < h := by omega
        exact_mod_cast this
      have hx : ((w : ℚ) * maxD) / h ≤ maxD := by
        rw [div_le_iff hh0]
        have hwhq : (w : ℚ) ≤ h := by
          have : w ≤ h := by omega
          exact_mod_cast this
        have hd0 : (0 : ℚ) ≤ maxD := by positivity
        nlinarith
      have hj : jround (((w : ℕ) * maxD : ℚ) / h) ≤ (maxD : ℤ) := by
        have hlt : jround (((w : ℕ) * maxD : ℚ) / h) < (maxD : ℤ) + 1 := by
          rw [jround, Int.floor_lt]
          push_cast
          push_cast at hx
          linarith
        omega
      have hrle : (jround (((w : ℕ) * maxD : ℚ) / h)).toNat ≤ maxD :=
        Int.toNat_le.mpr hj
      rw [resizeDims, if_pos hcond, if_neg hwh]
      refine ⟨max_eq_right hrle, ?_⟩
      rw [min_eq_left hrle, hminwh, hmaxwh]
  refine ⟨hmain.1, hmain.2, ?_, ?_, rfl⟩
  · rw [resizeDims, if_pos (by norm_num), if_pos (by norm_num)]
    norm_num [jround]
    rfl
  · intro h1 h2
    rw [processImageFile, if_neg (by omega)]

/-- C2 witness: the 4000×2000 resize and the in-bounds pass-through at
concrete inputs. -/
theorem C2_resize_amended_witness :
    resizeDims 4000 2000 1920 = (1920, 960) ∧
      processImageFile (fun _ _ _ _ => 0)
          ⟨"a.png", "image/png", 1000, 1000, 800, 7⟩ =
        ⟨"a.png", "image/png", 1000, 1000, 800, 7⟩ :=
  ⟨(C2_resize_amended (fun _ _ _ _ => 0)
      ⟨"a.png", "image/png", 1000, 1000, 800, 7⟩ 4000 2000 1920 1
      (by norm_num)).2.2.1,
   (C2_resize_amended (fun _ _ _ _ => 0)
      ⟨"a.png", "image/png", 1000, 1000, 800, 7⟩ 4000 2000 1920 1
      (by norm_num)).2.2.2.1 (by norm_num) (by norm_num)⟩

/-- C9 counterexample: the checks are prioritized, so "fails with
`TooLarge` iff the byte size exceeds 10 MiB" is false: an 11 MiB file
with a non-image MIME type fails with `InvalidType`, not `TooLarge`. -/
theorem C9_toolarge_iff_counterexample :
    validate ⟨"f", "text/plain", 11 * 1024 * 1024, 500, 500, 0⟩ =
      some ValidationError.InvalidType ∧
    validate ⟨"f", "text/plain", 11 * 1024 * 1024, 500, 500, 0⟩ ≠
      some ValidationError.TooLarge ∧
    10 * 1024 * 1024 < 11 * 1024 * 1024 := by
  have h : validate ⟨"f", "text/plain", 11 * 1024 * 1024, 500, 500, 0⟩ =
      some ValidationError.InvalidType := by
    rw [validate, validateImageFile, if_pos (by decide)]
  refine ⟨h, ?_, by norm_num⟩
  rw [h]
  intro hcontra
  exact absurd (Option.some_injective _ hcontra) (by decide)

/-- C9 (amended): validation checks run in order.  `InvalidType` iff the
MIME type is not an image type; given an image type, `TooLarge` iff the
byte size exceeds 10 MiB; given an image type within the size limit,
`TooSmall` iff the decoded width or height is below 400 px; success
otherwise. -/
theorem C9_validate_prioritized (f : ImgFile) :
    (mimeIsImage f.mime = false → validate f = some ValidationError.InvalidType) ∧
    (mimeIsImage f.mime = true → 10 * 1024 * 1024 < f.size →
      validate f = some ValidationError.TooLarge) ∧
    (mimeIsImage f.mime = true → f.size ≤ 10 * 1024 * 1024 →
      (f.width < 400 ∨ f.height < 400) →
      validate f = some ValidationError.TooSmall) ∧
    (mimeIsImage f.mime = true → f.size ≤ 10 * 1024 * 1024 →
      400 ≤ f.width → 400 ≤ f.height → validate f = none) := by
  have hq : ((f.size : ℚ) / (1024 * 1024) > 10) ↔ (10 * 1024 * 1024 < f.size) := by
    rw [gt_iff_lt, lt_div_iff (by norm_num : (0 : ℚ) < 1024 * 1024)]
    constructor
    · intro hlt
      exact_mod_cast hlt
    · intro hlt
      exact_mod_cast hlt
  refine ⟨?_, ?_, ?_, ?_⟩
  · intro hm
    rw [validate, validateImageFile, if_pos hm]
  · intro hm hs
    rw [validate, validateImageFile, if_neg (by simp [hm]), if_pos (hq.mpr hs)]
  · intro hm hs hd
    rw [validate, validateImageFile, if_neg (by simp [hm]),
      if_neg (by simp [hq]; omega), if_neg (by omega),
      validateImageDimensions, if_pos hd]
  · intro hm hs hw hh
    rw [validate, validateImageFile, if_neg (by simp [hm]),
      if_neg (by simp [hq]; omega), if_neg (by omega),
      validateImageDimensions, if_neg (by omega)]

/-- C9 witness: a 300×300 image fails with `TooSmall`, an 11 MiB image
file fails with `TooLarge`, and a 500×500 image of 2 MiB passes. -/
theorem C9_validate_prioritized_witness :
    validate ⟨"a", "image/png", 2 * 1024 * 1024, 300, 300, 0⟩ =
      some ValidationError.TooSmall ∧
    validate ⟨"b", "image/jpeg", 11 * 1024 * 1024, 500, 500, 0⟩ =
      some ValidationError.TooLarge ∧
    validate ⟨"c", "image/png", 2 * 1024 * 1024, 500, 500, 0⟩ = none :=
  ⟨(C9_validate_prioritized ⟨"a", "image/png", 2 * 1024 * 1024, 300, 300, 0⟩).2.2.1
      (by decide) (by norm_num) (Or.inl (by norm_num)),
   (C9_validate_prioritized ⟨"b", "image/jpeg", 11 * 1024 * 1024, 500, 500, 0⟩).2.1
      (by decide) (by norm_num),
   (C9_validate_prioritized ⟨"c", "image/png", 2 * 1024 * 1024, 500, 500, 0⟩).2.2.2
      (by decide) (by norm_num) (by norm_num) (by norm_num)⟩

/-- C3: clicking region R when R is already selected sets the selection to
`none` and emits no event; clicking R when it is not the selected region
sets the selection to R and emits `onObjectClick(R)` exactly once. -/
theorem C3_click_toggle (s : SelState) (r : ℕ) :
    (s.clickedObjectId = some r →
      handleObjectClick s r = ({ s with clickedObjectId := none }, [])) ∧
    (s.clickedObjectId ≠ some r →
      handleObjectClick s r =
        ({ s with clickedObjectId := some r }, [SelEvent.objectClick r])) := by
  constructor
  · intro h
    simp [handleObjectClick, h]
  · intro h
    simp [handleObjectClick, h]

/-- C3 witness: with object 3 selected, clicking 3 deselects silently and
clicking 5 selects 5 with exactly one `onObjectClick(5)` event. -/
theorem C3_click_toggle_witness :
    handleObjectClick ⟨none, some 3⟩ 3 = (⟨none, none⟩, []) ∧
      handleObjectClick ⟨none, some 3⟩ 5 =
        (⟨none, some 5⟩, [SelEvent.objectClick 5]) :=
  ⟨(C3_click_toggle ⟨none, some 3⟩ 3).1 rfl,
   (C3_click_toggle ⟨none, some 3⟩ 5).2 (by decide)⟩

end MSF
